import Mathlib

/-!
Verification of the LinkedIn Easy Apply bot core
(file `Linkedin Autoapplier/Final Autoapplier.py`).

The Python source is shallowly embedded: every definition below mirrors one
Python function or one of its data structures.  Browser reads (selector
queries, element visibility, model-service responses) are passed in as
explicit parameters, so each embedded function is a pure function of the
page state it observes.  Python strings are Lean `String`s; the Python
operators `in`, `str.lower()` and `str.strip()` are mirrored by `pyIn`,
`String.toLower` and `pyStrip`.  Numbers flowing through the numeric-answer
path are modelled as exact rationals; the values the code meets there are
short decimal literals, for which rational and IEEE arithmetic agree on
every comparison performed.
-/

namespace AutoApplier

/-- `isPrefixL n h` is true when the character list `n` is a prefix of `h`. -/
def isPrefixL : List Char → List Char → Bool
  | [], _ => true
  | _ :: _, [] => false
  | a :: as, b :: bs => a = b && isPrefixL as bs

/-- `containsSub n h`: the character list `n` occurs contiguously in `h`. -/
def containsSub : List Char → List Char → Bool
  | n, [] => n.isEmpty
  | n, c :: t => isPrefixL n (c :: t) || containsSub n t

/-- Python `needle in hay` on strings. -/
def pyIn (needle hay : String) : Bool :=
  containsSub needle.toList hay.toList

/-- The whitespace test used by Python `str.strip()` (ASCII fragment). -/
def isSpaceChar (c : Char) : Bool := c.isWhitespace

/-- Strip leading and trailing whitespace from a character list. -/
def stripList (l : List Char) : List Char :=
  ((l.dropWhile isSpaceChar).reverse.dropWhile isSpaceChar).reverse

/-- Python `s.strip()`. -/
def pyStrip (s : String) : String := String.mk (stripList s.toList)

/-- Python `s.lower()` (ASCII fragment, as exercised by the bot). -/
def pyLower (s : String) : String := String.mk (s.toList.map Char.toLower)

/-!  ### Checkbox resolution (`should_check_checkbox`, source lines 401-438) -/

/-- The `always_check_terms` list of `should_check_checkbox`. -/
def always_check_terms : List String :=
  ["agree", "accept", "consent", "confirm", "acknowledge", "i have read",
   "i understand", "privacy policy", "terms", "conditions"]

/-- The social opt-in vocabulary that routes a checkbox question to the
language model. -/
def social_opt_in_terms : List String :=
  ["follow", "subscribe", "notification", "update"]

/-- `should_check_checkbox` with the language model abstracted as `llm`.
Returns the decision together with the number of language-model calls made,
so that gateway-call counting claims can be stated.  Mirrors source lines
401-438: always-check terms first, then the social opt-in branch asking the
model a yes/no question, then the default `True`. -/
def should_check_checkbox (llm : String → String) (question : String) :
    Bool × Nat :=
  let q := pyLower question
  if always_check_terms.any (fun t => pyIn t q) then
    (true, 0)
  else if social_opt_in_terms.any (fun t => pyIn t q) then
    let ans := llm ("Should I check this box: " ++ q ++ "? Answer only Yes or No.")
    (pyStrip (pyLower ans) = "yes", 1)
  else
    (true, 0)

/-!  ### Text input resolution (`handle_text_input`, source lines 1630-1664) -/

/-- The `essential_fields` map of `handle_text_input`, in insertion order. -/
def essential_fields : List (String × String) :=
  [("first name", "Rupin"), ("last name", "Ajay"), ("phone", "+918248863436"),
   ("mobile", "+918248863436"), ("email", "rupinajay@gmail.com"),
   ("company", "Zyngate"), ("university", "Shiv Nadar University Chennai"),
   ("gpa", "8.2")]

/-- `handle_text_input` with the rate-limited gateway abstracted as `llm`.
`hasElement` records whether the field dict carries a usable input handle;
when it is `none` in the source, `element.clear()` raises and the enclosing
handler swallows the error, so nothing is typed and no model call is made.
Returns the text typed into the field (if any) and the number of gateway
calls.  Mirrors source lines 1630-1664: this is the later of the two
`handle_text_input` definitions in the class body, so it is the effective
one; the earlier definition at lines 1244-1292 (which routed numeric
questions through `is_numeric_input` and `get_numeric_answer`) is shadowed
by it.  The effective version types the gateway response verbatim for
every non-essential question. -/
def handle_text_input (llm : String → String) (question : String)
    (hasElement : Bool) : Option String × Nat :=
  if !hasElement then (none, 0)
  else
    let q := pyLower question
    match essential_fields.find? (fun kv => pyIn kv.1 q) with
    | some kv => (some kv.2, 0)
    | none => (some (llm q), 1)

/-!  ### Language-model gateway
(`get_rate_limited_llm_answer` lines 1666-1690, `get_llm_answer` lines
1692-1756, `get_fallback_answer` lines 1758-1782) -/

/-- The `fallback_answers` map of `get_fallback_answer`, in insertion order. -/
def fallback_answers : List (String × String) :=
  [("phone", "+91-8248863436"), ("email", "rupinajay@gmail.com"),
   ("name", "Rupin Ajay"), ("company", "Zynggate"),
   ("university", "Shiv Nadar University Chennai"), ("gpa", "8.2"),
   ("graduate", "No"), ("relocate", "No")]

/-- The title/position/role trigger list shared by `get_llm_answer` and
`get_fallback_answer`. -/
def title_terms : List String := ["title", "position", "role"]

/-- `get_fallback_answer` (source lines 1758-1782): substring-match the
lowercased question against `fallback_answers`, else a generic title for
title questions, else the literal `"Yes"`. -/
def get_fallback_answer (question : String) : String :=
  let q := pyLower question
  match fallback_answers.find? (fun kv => pyIn kv.1 q) with
  | some kv => kv.2
  | none =>
    if title_terms.any (fun t => pyIn t q) then "Software Engineer" else "Yes"

/-- An apostrophe character, kept out of string literals. -/
def apos : String := String.singleton (Char.ofNat 39)

/-- The throat-clearing phrases stripped from the front of a model response
by `get_llm_answer` (anchored alternation, first alternative wins). -/
def cleanupPhrases : List String :=
  ["I would say that ", "I can say that ", "I would like to say that "]

/-- The self-referential phrases stripped from the front of a title
response. -/
def titlePhrases : List String :=
  ["I am ", "I" ++ apos ++ "m ", "Currently ", "Working as "]

/-- `re.sub` with an anchored alternation of literal phrases: drop the first
listed phrase that is a prefix of `s`, if any. -/
def stripLeading (ps : List String) (s : String) : String :=
  match ps.find? (fun p => isPrefixL p.toList s.toList) with
  | some p => String.mk (s.toList.drop p.toList.length)
  | none => s

/-- The raw outcome of one `groq_client.chat.completions.create` call:
either a completion text or a raised error rendered as its message (the
code only ever inspects `str(e)`). -/
def ModelCall : Type := Except String String

/-- `get_llm_answer` (source lines 1692-1756) given the raw outcome of its
single model call.  The `try` block covers the whole body, and the
`except` branch returns `get_fallback_answer`, so this function returns a
plain `String` - it cannot raise past its boundary.  On success the
response is trimmed, a throat-clearing phrase is dropped, the text is cut
at the first period, and title responses additionally keep only the first
line with self-referential phrases dropped. -/
def get_llm_answer (question : String) (response : ModelCall) : String :=
  match response with
  | .error _ => get_fallback_answer question
  | .ok content =>
    let ql := pyLower question
    let ans := pyStrip content
    let ans := stripLeading cleanupPhrases ans
    let ans := (ans.splitOn ".").headD ""
    if title_terms.any (fun t => pyIn t ql) then
      stripLeading titlePhrases (pyStrip ((ans.splitOn "\n").headD ""))
    else ans

/-- `max_retries` of `get_rate_limited_llm_answer`. -/
def max_retries : Nat := 3

/-- `base_delay` of `get_rate_limited_llm_answer`, in seconds. -/
def base_delay : Nat := 2

/-- One run of the gateway: the returned answer, the number of
`get_llm_answer` invocations performed, and the list of backoff sleeps (in
seconds) executed before retries. -/
structure GatewayRun where
  answer : String
  calls : Nat
  sleeps : List Nat
deriving DecidableEq, Repr

/-- The retry loop of `get_rate_limited_llm_answer` (source lines
1666-1690), over the list of remaining attempt indices and with the body
call abstracted as `f : attempt index -> outcome` where `.error e` means
the call raised with message `e`.  Before a retry (attempt index above 0)
the loop sleeps `base_delay * 2 ^ attempt` seconds.  A raised message
containing `"429"` retries until the last attempt index and then falls
back; any other raise falls back at once; exhausting the list reaches the
post-loop fallback. -/
def rateLimitLoop (f : Nat → Except String String) (question : String) :
    List Nat → GatewayRun
  | [] => ⟨get_fallback_answer question, 0, []⟩
  | a :: rest =>
    let pre : List Nat := if 0 < a then [base_delay * 2 ^ a] else []
    match f a with
    | .ok ans => ⟨ans, 1, pre⟩
    | .error e =>
      if pyIn "429" e then
        if a = max_retries - 1 then ⟨get_fallback_answer question, 1, pre⟩
        else
          let r := rateLimitLoop f question rest
          ⟨r.answer, r.calls + 1, pre ++ r.sleeps⟩
      else ⟨get_fallback_answer question, 1, pre⟩

/-- The retry loop run over attempts `0, 1, 2`, with `f` the outcome of the
`get_llm_answer` call at each attempt index. -/
def get_rate_limited_core (f : Nat → Except String String)
    (question : String) : GatewayRun :=
  rateLimitLoop f question (List.range max_retries)

/-- `get_rate_limited_llm_answer` as composed in the source: the body call
of the retry loop is `get_llm_answer`, whose own `try/except` makes it
total, so the body never raises (`.ok` always).  `create n` is the raw
outcome of the `n`-th model call. -/
def get_rate_limited_llm_answer (create : Nat → ModelCall)
    (question : String) : GatewayRun :=
  get_rate_limited_core (fun n => .ok (get_llm_answer question (create n)))
    question

/-!  ### Numeric answers
(`get_numeric_answer` lines 1379-1414, `get_fallback_numeric_value` lines
1431-1444).  Values are modelled as exact rationals.  `get_numeric_answer`
is a live method of the class but its only caller is the shadowed earlier
`handle_text_input` (lines 1244-1292), so the effective program never
invokes it; the theorems below both verify the pipeline as written and
exhibit the severed composition. -/

/-- Match of `\d+(?:\.\d+)?` anchored at the start of the list: maximal
digit run, optionally followed by a dot and a further nonempty maximal
digit run. -/
def matchNumberAt (cs : List Char) : Option (List Char) :=
  let ds := cs.takeWhile Char.isDigit
  if ds.isEmpty then none
  else
    match cs.drop ds.length with
    | c :: cs2 =>
      if c = Char.ofNat 46 then
        let fs := cs2.takeWhile Char.isDigit
        if fs.isEmpty then some ds else some (ds ++ c :: fs)
      else some ds
    | [] => some ds

/-- Leftmost match: `re.search` tries each start position left to right. -/
def searchNumber : List Char → Option (List Char)
  | [] => none
  | c :: cs =>
    match matchNumberAt (c :: cs) with
    | some m => some m
    | none => searchNumber cs

/-- `re.search(r'\d+(?:\.\d+)?', s)`: the first numeric token of `s`. -/
def extractNumericToken (s : String) : Option String :=
  (searchNumber s.toList).map String.mk

/-- Decimal digits to a natural number. -/
def digitsToNat (ds : List Char) : Nat :=
  ds.foldl (fun n c => 10 * n + (c.toNat - 48)) 0

/-- Python `float(tok)` for a token produced by the numeric regex
(a digit run, optionally a dot and a second digit run), as an exact
rational. -/
def parseDecimal (tok : String) : ℚ :=
  let cs := tok.toList
  let ds := cs.takeWhile Char.isDigit
  match cs.drop ds.length with
  | c :: fs =>
    if c = Char.ofNat 46 then
      (digitsToNat ds : ℚ) + (digitsToNat fs : ℚ) / (10 ^ fs.length : ℚ)
    else (digitsToNat ds : ℚ)
  | [] => (digitsToNat ds : ℚ)

/-- Fractional decimal digits of a rational in `[0, 1)`, with fuel matching
the precision of a printed Python float. -/
def fracDigitsAux : ℚ → Nat → List Char
  | _, 0 => []
  | f, n + 1 =>
    if f = 0 then []
    else
      let f10 := f * 10
      let d := f10.floor
      Char.ofNat (48 + d.toNat) :: fracDigitsAux (f10 - (d : ℚ)) n

/-- Python `str(value)` after the `int(value) if value.is_integer()`
normalization: integers print without a decimal point, other values print
sign, integer part, dot, fractional expansion. -/
def pyNumStr (q : ℚ) : String :=
  if q.den = 1 then toString q.num
  else
    let sgn := if q < 0 then "-" else ""
    let a := if q < 0 then -q else q
    let ip := a.floor
    sgn ++ toString ip ++ "." ++ String.mk (fracDigitsAux (a - (ip : ℚ)) 17)

/-- `get_fallback_numeric_value` (source lines 1431-1444):
`str(constraints.get("min", 0))` when the range is consistent against
`constraints.get("max", 99)`, else the literal `"1"`. -/
def get_fallback_numeric_value (cmin cmax : Option ℚ) : String :=
  let minV := cmin.getD 0
  let maxV := cmax.getD 99
  if minV ≤ maxV then pyNumStr minV else "1"

/-- `get_numeric_answer` (source lines 1379-1414) given the gateway
response `answer`: extract the first numeric token, clamp below by `min`
then above by `max` when present, normalize whole values to integers, and
render; with no token fall back to `get_fallback_numeric_value`. -/
def get_numeric_answer (answer : String) (cmin cmax : Option ℚ) : String :=
  match extractNumericToken answer with
  | some tok =>
    let value := parseDecimal tok
    let value := match cmin with | some m => max value m | none => value
    let value := match cmax with | some m => min value m | none => value
    pyNumStr value
  | none => get_fallback_numeric_value cmin cmax

/-!  ### Select fields (`handle_standard_select`, source lines 1032-1071) -/

/-- The option-list extraction of `handle_standard_select`:
`[opt.text.strip() for opt in select.options if opt.text.strip()]` - strip
every visible option label and keep the non-empty results, in order. -/
def extractSelectOptions (raw : List String) : List String :=
  (raw.map pyStrip).filter (fun s => !s.isEmpty)

/-- The selection made by `handle_standard_select` on the extracted option
list, for the already-lowercased `question`.  Keyword branches (country
code, experience) run first; when they do not return, control falls
through to the generic rule: the first option after the first whose
stripped text is non-empty, else the first option when its stripped text
is non-empty, else nothing.  `none` means the function returned without
selecting. -/
def handle_standard_select (question : String) (options : List String) :
    Option String :=
  if options.isEmpty then none
  else
    let keywordPick : Option String :=
      if pyIn "country code" question then
        options.find? (fun o =>
          ["india", "+91"].any (fun t => pyIn t (pyLower o)))
      else if pyIn "experience" question then
        options.find? (fun o => pyIn "1" o || pyIn "one" (pyLower o))
      else none
    match keywordPick with
    | some o => some o
    | none =>
      match (options.drop 1).find? (fun o => !(pyStrip o).isEmpty) with
      | some o => some o
      | none =>
        let first := options.headD ""
        if !(pyStrip first).isEmpty then some first else none

/-!  ### Radio fields (`handle_radio_buttons` lines 1446-1480,
`find_radio_buttons` lines 282-308) -/

/-- The overlap test of `handle_radio_buttons`:
`answer.lower() in option.lower() or option.lower() in answer.lower()`. -/
def overlaps (answer option : String) : Bool :=
  pyIn (pyLower answer) (pyLower option) || pyIn (pyLower option) (pyLower answer)

/-- Index of the first option whose text overlaps the candidate answer
(the `enumerate` loop that sets `best_match` and breaks). -/
def firstOverlapIdx (answer : String) : List String → Option Nat
  | [] => none
  | o :: rest =>
    if overlaps answer o then some 0
    else (firstOverlapIdx answer rest).map (· + 1)

/-- `handle_radio_buttons` (source lines 1446-1480) at the selection level.
`options` is the `options` entry of the field dict (built earlier by
`get_radio_options` from the six selectors of `find_radio_buttons`, empty
texts dropped); `radios` is the length of the list the handler re-queries
with the single selector `input[type=radio]` and indexes into.  The result
is the index of the clicked radio input, or `none` when nothing is clicked:
an empty option list returns early, and an option index beyond `radios`
raises `IndexError`, which the enclosing handler swallows. -/
def handle_radio_buttons (answer : String) (options : List String)
    (radios : Nat) : Option Nat :=
  if options.isEmpty then none
  else
    match firstOverlapIdx answer options with
    | some i => if i < radios then some i else none
    | none => if 0 < radios then some 0 else none

/-!  ### Navigation handler (`handle_form_buttons`, effective definition at
source lines 1889-1990; an earlier definition of the same name at lines
1783-1887 is shadowed by it) -/

/-- The `completion_indicators` list checked against the page source. -/
def completion_indicators : List String :=
  ["application has been submitted", "successfully submitted",
   "thank you for applying", "application received"]

/-- What `handle_form_buttons` observes on one invocation.  Per button
tier, selector misses, selector errors and failed clicks are all caught
and scanning continues, so the tier either ends with a successfully
clicked button (`true`) or falls through (`false`).  `raises` covers an
error escaping to the outermost handler (for example a failed
`page_source` read). -/
structure ButtonEnv where
  pageText : String
  submitClicked : Bool
  reviewClicked : Bool
  nextClicked : Bool
  reviewThenSubmit : Bool
  raises : Bool
deriving DecidableEq, Repr

/-- `handle_form_buttons` (source lines 1889-1990): completion indicators
in the page text report `"submitted"`; otherwise the Submit, Review,
Next/Continue tiers are probed in priority order - a clicked Submit
reports `"submitted"`, a clicked Review reports `"submitted"` when
`click_submit_after_review` succeeds and `"continue"` otherwise, a clicked
Next reports `"continue"`; with no clicked button the result is
`"completed"`, and an escaped error is caught and reported as
`"error"`. -/
def handle_form_buttons (env : ButtonEnv) : String :=
  if env.raises then "error"
  else if completion_indicators.any (fun s => pyIn s (pyLower env.pageText)) then
    "submitted"
  else if env.submitClicked then "submitted"
  else if env.reviewClicked then
    if env.reviewThenSubmit then "submitted" else "continue"
  else if env.nextClicked then "continue"
  else "completed"

/-!  ### Step controller (`process_application_form`, source lines 744-800) -/

/-- A form field as enumerated by `analyze_form_fields`: its question text
and its `type` string. -/
structure Field where
  question : String
  ftype : String
deriving DecidableEq, Repr

/-- `field_id = f"{question}_{type}"` - the key stored in
`processed_fields`. -/
def fieldId (f : Field) : String := f.question ++ "_" ++ f.ftype

/-- What one iteration of the step loop observes from the browser:
the top-of-loop `is_application_submitted()` check, the field list from
`analyze_form_fields()`, the `find_form_buttons()` probe used when the
field list is empty, the `handle_form_buttons()` status, and the
`is_application_submitted()` re-check made in the falsy-status branch. -/
structure StepView where
  isSubmitted : Bool
  formFields : List Field
  hasButtons : Bool
  buttonResult : String
  lateSubmitted : Bool

/-- How one application attempt ended.  The first four mirror the four
exits of the `while` body; `stepLimit` is the exhaustion of the
`current_step < max_steps` condition; `fuelOut` is an artifact of the
fuelled recursion and is proved unreachable. -/
inductive Outcome where
  | submitted
  | completedNoFields
  | submittedLate
  | noButtons
  | stepLimit
  | fuelOut
deriving DecidableEq, Repr

/-- The mutable state of `process_application_form`: the step counter, the
`processed_fields` key set (as a list), and - for specification purposes -
the trace of `process_field` invocations as `(step, field)` pairs. -/
structure LoopState where
  currentStep : Nat
  processedFields : List String
  trace : List (Nat × Field)
deriving DecidableEq, Repr

/-- The `for field in form_fields` body (source lines 775-786): skip a
field whose key is already in `processed_fields`, otherwise invoke
`process_field` (recorded in the trace) and add the key. -/
def processStepFields (step : Nat) (processed : List String)
    (trace : List (Nat × Field)) : List Field → List String × List (Nat × Field)
  | [] => (processed, trace)
  | f :: rest =>
    if fieldId f ∈ processed then
      processStepFields step processed trace rest
    else
      processStepFields step (processed ++ [fieldId f])
        (trace ++ [(step, f)]) rest

/-- `max_steps` of `process_application_form`. -/
def max_steps : Nat := 20

/-- Result of an attempt: final state, terminal outcome, and the number of
loop iterations executed. -/
structure RunResult where
  state : LoopState
  outcome : Outcome
  iters : Nat
deriving DecidableEq, Repr

/-- The state after the field-processing pass of one iteration: the
counter moved to the new step, the key set and trace extended over the
step's field list. -/
def afterFields (env : Nat → StepView) (s : LoopState) : LoopState :=
  ⟨s.currentStep + 1,
   (processStepFields (s.currentStep + 1) s.processedFields s.trace
     (env (s.currentStep + 1)).formFields).1,
   (processStepFields (s.currentStep + 1) s.processedFields s.trace
     (env (s.currentStep + 1)).formFields).2⟩

/-- Account one executed loop iteration around a recursive run. -/
def bumpIters (r : RunResult) : RunResult := ⟨r.state, r.outcome, r.iters + 1⟩

/-- The `while current_step < max_steps` loop of `process_application_form`
(source lines 744-800), with the dialog abstracted as `env : step number ->
StepView` and a fuel argument bounding the recursion (the fuel plays no
role when it is at least `max_steps - currentStep`; see the termination
theorems).  Each iteration increments the step counter, returns on the
submission check, returns when no fields and no buttons are found,
processes the unprocessed fields, and inspects only the truthiness of the
navigation status: a falsy status re-checks submission and otherwise
breaks, and any truthy status continues the loop.  The
`handle_file_upload_if_present()` call of the body touches only the page,
never the loop state, and is therefore not represented. -/
def runFrom (env : Nat → StepView) : Nat → LoopState → RunResult
  | fuel, s =>
    if s.currentStep < max_steps then
      match fuel with
      | 0 => ⟨s, .fuelOut, 0⟩
      | fuel + 1 =>
        if (env (s.currentStep + 1)).isSubmitted then
          ⟨⟨s.currentStep + 1, s.processedFields, s.trace⟩, .submitted, 1⟩
        else if (env (s.currentStep + 1)).formFields.isEmpty
            && !(env (s.currentStep + 1)).hasButtons then
          ⟨⟨s.currentStep + 1, s.processedFields, s.trace⟩, .completedNoFields, 1⟩
        else if (env (s.currentStep + 1)).buttonResult = "" then
          if (env (s.currentStep + 1)).lateSubmitted then
            ⟨afterFields env s, .submittedLate, 1⟩
          else ⟨afterFields env s, .noButtons, 1⟩
        else bumpIters (runFrom env fuel (afterFields env s))
    else ⟨s, .stepLimit, 0⟩

/-- `process_application_form`: the loop started at step counter `0`, empty
`processed_fields`, empty trace, with fuel `max_steps`. -/
def process_application_form (env : Nat → StepView) : RunResult :=
  runFrom env max_steps ⟨0, [], []⟩

/-!  ### Concrete scenarios used by the evaluation theorems -/

/-- A model call that always raises a rate-limit error. -/
def create429 : Nat → ModelCall :=
  fun _ => .error "Error code: 429 - rate limit exceeded"

/-- A question matching no fallback key and no title term. -/
def q429 : String := "how many years of experience do you have"

/-- A page where the Submit tier finds and clicks a displayed, enabled
Submit control. -/
def benvC1Submit : ButtonEnv :=
  ⟨"a plain form page", true, false, false, false, false⟩

/-- A later page with no completion indicator and no clickable button. -/
def benvC1Blank : ButtonEnv :=
  ⟨"a plain form page", false, false, false, false, false⟩

/-- A field that the dialog renders only after the Submit activation. -/
def fieldC1 : Field := ⟨"Are you available immediately", "text"⟩

/-- The dialog of the claim-C1 scenario: at step 1 the navigation handler
clicks a Submit control and reports `"submitted"`, yet the
submission-check selectors of `is_application_submitted` match nothing at
any later step (their literal texts need not appear on the post-submit
page); step 2 still renders one unprocessed field, and from step 3 on
nothing is found. -/
def envC1 : Nat → StepView
  | 1 => ⟨false, [], true, handle_form_buttons benvC1Submit, false⟩
  | 2 => ⟨false, [fieldC1], true, handle_form_buttons benvC1Blank, false⟩
  | _ => ⟨false, [], false, handle_form_buttons benvC1Blank, false⟩

/-- A dialog whose pages never show a completion indicator and never offer
a clickable navigation button, driven entirely by the real
`handle_form_buttons`. -/
def benvQuiet : Nat → ButtonEnv :=
  fun _ => ⟨"no indicators here", false, false, false, false, false⟩

/-- Step views generated from `benvQuiet`, with navigation buttons present
to keep the loop running. -/
def envQuiet : Nat → StepView :=
  fun n => ⟨false, [], true, handle_form_buttons (benvQuiet n), false⟩

/-!  ## Helper lemmas -/

theorem dropWhile_head_false {α : Type} {p : α → Bool} :
    ∀ {l : List α} {a : α} {t : List α}, l.dropWhile p = a :: t → p a = false := by
  intro l
  induction l with
  | nil => intro a t h; simp [List.dropWhile] at h
  | cons b l ih =>
    intro a t h
    rw [List.dropWhile_cons] at h
    by_cases hb : p b
    · rw [if_pos hb] at h
      exact ih h
    · rw [if_neg hb] at h
      cases h
      simpa using hb

theorem dropWhile_idem {α : Type} (p : α → Bool) (l : List α) :
    (l.dropWhile p).dropWhile p = l.dropWhile p := by
  cases h : l.dropWhile p with
  | nil => simp
  | cons a t =>
    have ha := dropWhile_head_false h
    rw [List.dropWhile_cons, if_neg (by simp [ha])]

theorem stripList_idem (l : List Char) : stripList (stripList l) = stripList l := by
  unfold stripList
  have h1 : ((l.dropWhile isSpaceChar).reverse.dropWhile isSpaceChar).reverse.dropWhile
      isSpaceChar
      = ((l.dropWhile isSpaceChar).reverse.dropWhile isSpaceChar).reverse := by
    cases hvr : ((l.dropWhile isSpaceChar).reverse.dropWhile isSpaceChar).reverse with
    | nil => simp
    | cons a t =>
      have hsuf : (l.dropWhile isSpaceChar).reverse.dropWhile isSpaceChar
          <:+ (l.dropWhile isSpaceChar).reverse := List.dropWhile_suffix isSpaceChar
      have hpre : ((l.dropWhile isSpaceChar).reverse.dropWhile isSpaceChar).reverse
          <+: l.dropWhile isSpaceChar := by
        have h2 := List.reverse_prefix.mpr hsuf
        rwa [List.reverse_reverse] at h2
      obtain ⟨r, hr⟩ := hpre
      rw [hvr] at hr
      have hu : l.dropWhile isSpaceChar = a :: (t ++ r) := by
        rw [← hr]; rfl
      have ha := dropWhile_head_false hu
      rw [List.dropWhile_cons, if_neg (by simp [ha])]
  rw [h1, List.reverse_reverse, dropWhile_idem]

theorem pyStrip_idem (s : String) : pyStrip (pyStrip s) = pyStrip s := by
  show String.mk (stripList (stripList s.toList)) = String.mk (stripList s.toList)
  rw [stripList_idem]

/-- Every member of an extracted select-option list is already stripped and
non-empty. -/
theorem mem_extractSelectOptions {raw : List String} {o : String}
    (h : o ∈ extractSelectOptions raw) : pyStrip o = o ∧ o.isEmpty = false := by
  unfold extractSelectOptions at h
  have h1 := List.of_mem_filter h
  have h2 := List.mem_of_mem_filter h
  obtain ⟨r, _, rfl⟩ := List.mem_map.mp h2
  refine ⟨pyStrip_idem r, ?_⟩
  simpa using h1

/-- A list whose image under `g` has no duplicates holds at most one
element of each `g`-fiber. -/
theorem length_filter_fiber_le_one {α β : Type} [DecidableEq β] (g : α → β) :
    ∀ (l : List α), (l.map g).Nodup → ∀ b : β,
      (l.filter (fun a => g a = b)).length ≤ 1 := by
  intro l
  induction l with
  | nil => intro _ b; simp
  | cons a t ih =>
    intro hn b
    rw [List.map_cons, List.nodup_cons] at hn
    by_cases hab : g a = b
    · have ht : t.filter (fun x => decide (g x = b)) = [] := by
        apply List.filter_eq_nil_iff.mpr
        intro x hx
        simp only [decide_eq_true_eq]
        intro hxb
        exact hn.1 (List.mem_map.mpr ⟨x, hx, by rw [hxb, hab]⟩)
      simp [List.filter_cons, hab, ht]
    · simpa [List.filter_cons, hab] using ih hn.2 b

/-- Character-list prefix test agrees with the `IsPrefix` relation. -/
theorem isPrefixL_iff : ∀ (n h : List Char), isPrefixL n h = true ↔ n <+: h := by
  intro n
  induction n with
  | nil => intro h; simp [isPrefixL]
  | cons a as ih =>
    intro h
    cases h with
    | nil => simp [isPrefixL]
    | cons b bs =>
      simp only [isPrefixL, Bool.and_eq_true, decide_eq_true_eq]
      constructor
      · rintro ⟨rfl, h2⟩
        exact (List.prefix_cons_inj a).mpr ((ih bs).mp h2)
      · intro hp
        obtain ⟨r, hr⟩ := hp
        rw [List.cons_append] at hr
        cases hr
        exact ⟨rfl, (ih (as ++ r)).mpr ⟨r, rfl⟩⟩

/-- A returned overlap index is in range, overlaps, and is minimal. -/
theorem firstOverlapIdx_some_spec (answer : String) :
    ∀ (options : List String) (i : Nat), firstOverlapIdx answer options = some i →
      ∃ hi : i < options.length,
        overlaps answer (options.get ⟨i, hi⟩) = true
        ∧ ∀ j (hj : j < options.length), j < i →
            overlaps answer (options.get ⟨j, hj⟩) = false := by
  intro options
  induction options with
  | nil => intro i h; simp [firstOverlapIdx] at h
  | cons o rest ih =>
    intro i h
    unfold firstOverlapIdx at h
    by_cases ho : overlaps answer o = true
    · rw [if_pos ho] at h
      cases h
      refine ⟨by simp, by simpa using ho, ?_⟩
      intro j hj hj0
      omega
    · rw [if_neg ho] at h
      cases hr : firstOverlapIdx answer rest with
      | none => rw [hr] at h; simp at h
      | some k =>
        rw [hr] at h
        simp at h
        subst h
        obtain ⟨hk, hov, hmin⟩ := ih k hr
        refine ⟨by simpa using Nat.succ_lt_succ hk, by simpa using hov, ?_⟩
        intro j hj hjk
        cases j with
        | zero => simpa using Bool.eq_false_iff.mpr ho
        | succ j' =>
          have hj' : j' < rest.length := by simpa using hj
          have := hmin j' hj' (by omega)
          simpa using this

/-- When no overlap index is returned, no option overlaps. -/
theorem firstOverlapIdx_none_spec (answer : String) :
    ∀ (options : List String), firstOverlapIdx answer options = none →
      ∀ j (hj : j < options.length),
        overlaps answer (options.get ⟨j, hj⟩) = false := by
  intro options
  induction options with
  | nil => intro _ j hj; simp at hj
  | cons o rest ih =>
    intro h j hj
    unfold firstOverlapIdx at h
    by_cases ho : overlaps answer o = true
    · rw [if_pos ho] at h; simp at h
    · rw [if_neg ho] at h
      cases j with
      | zero => simpa using Bool.eq_false_iff.mpr ho
      | succ j' =>
        cases hr : firstOverlapIdx answer rest with
        | none =>
          have hj' : j' < rest.length := by simpa using hj
          simpa using ih hr j' hj'
        | some k => rw [hr] at h; simp at h

/-!  ## Claim C9: always-agree checkboxes bypass the gateway -/

/-- Claim C9: for every checkbox question containing one of the fixed
always-agree terms, `should_check_checkbox` returns `true` and performs no
language-model call. -/
theorem always_agree_checkbox_no_gateway (llm : String → String) (q : String)
    (h : always_check_terms.any (fun t => pyIn t (pyLower q)) = true) :
    should_check_checkbox llm q = (true, 0) := by
  unfold should_check_checkbox
  simp [h]

/-- Witness for C9 at the question `"I agree to the terms"`. -/
theorem always_agree_checkbox_no_gateway_witness :
    always_check_terms.any (fun t => pyIn t (pyLower "I agree to the terms")) = true
    ∧ should_check_checkbox (fun _ => "No") "I agree to the terms" = (true, 0) :=
  ⟨by decide, always_agree_checkbox_no_gateway (fun _ => "No") "I agree to the terms"
    (by decide)⟩

/-!  ## Claim C5: essential text fields bypass the gateway -/

/-- Claim C5: for every text or textarea field whose lowercased question
contains an essential-field key, `handle_text_input` types the mapped
profile value of the first matching key and makes no gateway call. -/
theorem essential_text_fields_bypass_gateway (llm : String → String) (q : String)
    (h : essential_fields.any (fun kv => pyIn kv.1 (pyLower q)) = true) :
    (handle_text_input llm q true).2 = 0
    ∧ ∃ kv ∈ essential_fields, pyIn kv.1 (pyLower q) = true
        ∧ (handle_text_input llm q true).1 = some kv.2 := by
  have hs : (essential_fields.find? (fun kv => pyIn kv.1 (pyLower q))).isSome := by
    rw [List.find?_isSome]
    simpa using List.any_eq_true.mp h
  obtain ⟨kv, hkv⟩ := Option.isSome_iff_exists.mp hs
  have hmem := List.mem_of_find?_eq_some hkv
  have hp := List.find?_some hkv
  unfold handle_text_input
  simp only [Bool.not_true, Bool.false_eq_true, if_false, hkv]
  exact ⟨trivial, kv, hmem, hp, rfl⟩

/-- Witness for C5 at the question `"First Name"`. -/
theorem essential_text_fields_bypass_gateway_witness :
    essential_fields.any (fun kv => pyIn kv.1 (pyLower "First Name")) = true
    ∧ ((handle_text_input (fun _ => "model output") "First Name" true).2 = 0
        ∧ ∃ kv ∈ essential_fields, pyIn kv.1 (pyLower "First Name") = true
            ∧ (handle_text_input (fun _ => "model output") "First Name" true).1
              = some kv.2) :=
  ⟨by decide, essential_text_fields_bypass_gateway (fun _ => "model output")
    "First Name" (by decide)⟩

/-!  ## Claim C4: the gateway retry policy never triggers -/

/-- Claim C4 (code bug): `get_llm_answer` catches every error internally
and returns the fallback itself, so the retry loop of
`get_rate_limited_llm_answer` always returns on its first attempt - one
body call, no backoff sleeps - for every model behavior; at the concrete
always-rate-limited input the composed gateway answers after one call with
no sleeps, while the loop run directly over the raising model call (the
behavior the claim describes) would take 3 attempts with sleeps of
`2 * 2 ^ 1 = 4` and `2 * 2 ^ 2 = 8` seconds. -/
theorem gateway_retry_never_triggers :
    (∀ (create : Nat → ModelCall) (q : String),
      get_rate_limited_llm_answer create q
        = ⟨get_llm_answer q (create 0), 1, []⟩)
    ∧ get_rate_limited_llm_answer create429 q429 = ⟨"Yes", 1, []⟩
    ∧ get_rate_limited_core create429 q429
        = ⟨get_fallback_answer q429, 3, [4, 8]⟩ :=
  ⟨fun _ _ => rfl, by decide, by decide⟩

/-!  ## Claim C8: radio selection -/

/-- Counterexample to claim C8 as stated: a radio field whose option list
(gathered by the six selectors of `find_radio_buttons`) is the non-empty
`["A", "B"]` while the plain `input[type=radio]` re-query yields a single
input; the first overlapping option has index 1, indexing the radio list
raises, the enclosing handler swallows the error, and the group is left
unselected. -/
theorem radio_left_unselected_counterexample :
    (["A", "B"] : List String) ≠ []
    ∧ firstOverlapIdx "B" ["A", "B"] = some 1
    ∧ handle_radio_buttons "B" ["A", "B"] 1 = none := by
  refine ⟨by decide, by decide, by decide⟩

/-- Claim C8 as amended: provided every option index is backed by an entry
of the re-queried radio-input list, the handler clicks the first option in
original order whose text overlaps the candidate answer, and clicks the
first option when none overlaps, so the group is not left unselected. -/
theorem radio_first_overlap_or_first (answer : String) (options : List String)
    (radios : Nat) (h : options ≠ []) (hlen : options.length ≤ radios) :
    ∃ i, handle_radio_buttons answer options radios = some i
      ∧ ((∃ hi : i < options.length,
            overlaps answer (options.get ⟨i, hi⟩) = true
            ∧ ∀ j (hj : j < options.length), j < i →
                overlaps answer (options.get ⟨j, hj⟩) = false)
         ∨ (i = 0 ∧ ∀ j (hj : j < options.length),
              overlaps answer (options.get ⟨j, hj⟩) = false)) := by
  have hne : options.isEmpty = false := by
    cases options with
    | nil => exact absurd rfl h
    | cons a t => rfl
  unfold handle_radio_buttons
  rw [hne]
  simp only [Bool.false_eq_true, if_false]
  cases hidx : firstOverlapIdx answer options with
  | some i =>
    obtain ⟨hi, hov, hmin⟩ := firstOverlapIdx_some_spec answer options i hidx
    refine ⟨i, ?_, Or.inl ⟨hi, hov, hmin⟩⟩
    have hir : i < radios := lt_of_lt_of_le hi hlen
    simp [hir]
  | none =>
    have hspec := firstOverlapIdx_none_spec answer options hidx
    refine ⟨0, ?_, Or.inr ⟨rfl, hspec⟩⟩
    have hr : 0 < radios := lt_of_lt_of_le (List.length_pos.mpr h) hlen
    simp [hr]

/-- Witness for the amended C8 at a two-option yes/no group with two radio
inputs and candidate answer `"No"`. -/
theorem radio_first_overlap_or_first_witness :
    (["Yes", "No"] : List String) ≠ [] ∧ (["Yes", "No"] : List String).length ≤ 2
    ∧ ∃ i, handle_radio_buttons "No" ["Yes", "No"] 2 = some i
      ∧ ((∃ hi : i < (["Yes", "No"] : List String).length,
            overlaps "No" ((["Yes", "No"] : List String).get ⟨i, hi⟩) = true
            ∧ ∀ j (hj : j < (["Yes", "No"] : List String).length), j < i →
                overlaps "No" ((["Yes", "No"] : List String).get ⟨j, hj⟩) = false)
         ∨ (i = 0 ∧ ∀ j (hj : j < (["Yes", "No"] : List String).length),
              overlaps "No" ((["Yes", "No"] : List String).get ⟨j, hj⟩) = false)) :=
  ⟨by decide, by decide,
    radio_first_overlap_or_first "No" ["Yes", "No"] 2 (by decide) (by decide)⟩

/-!  ## Claim C6: numeric answers are extracted, clamped and normalized -/

/-- The numeric pipeline as written: when the gateway response contains a
numeric token and the field carries a consistent `{min, max}` constraint,
`get_numeric_answer` renders the token value clamped below by `min` then
above by `max`; the value lies in the range, equals the token value
whenever that value is already in range, and is rendered as a plain
integer whenever it has no fractional part.  (General development theorem;
the claim itself is settled by `numeric_pipeline_shadowed_eval`, since the
effective resolver never calls this pipeline.) -/
theorem numeric_answer_clamped (ans tok : String) (m M : ℚ)
    (h : extractNumericToken ans = some tok) (hmM : m ≤ M) :
    get_numeric_answer ans (some m) (some M)
      = pyNumStr (min (max (parseDecimal tok) m) M)
    ∧ m ≤ min (max (parseDecimal tok) m) M
    ∧ min (max (parseDecimal tok) m) M ≤ M
    ∧ (m ≤ parseDecimal tok → parseDecimal tok ≤ M →
        min (max (parseDecimal tok) m) M = parseDecimal tok)
    ∧ ∀ z : ℤ, min (max (parseDecimal tok) m) M = (z : ℚ) →
        pyNumStr (min (max (parseDecimal tok) m) M) = toString z := by
  refine ⟨?_, ?_, ?_, ?_, ?_⟩
  · unfold get_numeric_answer
    rw [h]
  · exact le_min (le_max_right _ _) hmM
  · exact min_le_right _ _
  · intro hml hMu
    rw [max_eq_left hml, min_eq_left hMu]
  · intro z hz
    unfold pyNumStr
    rw [hz]
    rw [if_pos (Rat.den_intCast z), Rat.num_intCast]

/-- Instance of `numeric_answer_clamped`: constraint `{min: 0, max: 10}`
and gateway response `"15 years"` yield the clamped value `"10"`. -/
theorem numeric_answer_clamped_example :
    extractNumericToken "15 years" = some "15" ∧ (0 : ℚ) ≤ 10
    ∧ get_numeric_answer "15 years" (some 0) (some 10) = "10" := by
  have h := numeric_answer_clamped "15 years" "15" 0 10 (by decide) (by norm_num)
  refine ⟨by decide, by norm_num, ?_⟩
  rw [h.1]
  decide

/-- Claim C6 (code bug): `get_numeric_answer` does yield `"10"` for
constraint `{min: 0, max: 10}` and response `"15 years"`, exactly as the
claim describes - but its only caller is the shadowed earlier
`handle_text_input`, so the effective Answer Resolver never invokes it:
for a non-essential numeric question the effective `handle_text_input`
commits the gateway response verbatim (`"15 years"`, unclamped), not
`"10"`. -/
theorem numeric_pipeline_shadowed_eval :
    get_numeric_answer "15 years" (some 0) (some 10) = "10"
    ∧ extractNumericToken "15 years" = some "15"
    ∧ handle_text_input (fun _ => "15 years")
        "How many years of work experience do you have with Python?" true
      = (some "15 years", 1) := by
  refine ⟨by decide, by decide, by decide⟩

/-!  ## Claim C7: select resolution skips the placeholder -/

/-- Claim C7: for a select question matching neither keyword rule, the
options list extracted from the visible labels (stripped, empties dropped)
selects its second entry when one exists - the first non-empty option
after the placeholder - and its first entry only when no later option
remains. -/
theorem select_skips_placeholder (q : String) (raw : List String)
    (first : String) (rest : List String)
    (h1 : pyIn "country code" q = false) (h2 : pyIn "experience" q = false)
    (hE : extractSelectOptions raw = first :: rest) :
    handle_standard_select q (first :: rest) = some (rest.headD first) := by
  have hmem0 : first ∈ extractSelectOptions raw := by
    rw [hE]; exact List.mem_cons_self first rest
  obtain ⟨hs0, he0⟩ := mem_extractSelectOptions hmem0
  unfold handle_standard_select
  rw [h1, h2]
  cases rest with
  | nil => simp [hs0, he0]
  | cons r rest2 =>
    have hmemr : r ∈ extractSelectOptions raw := by
      rw [hE]; exact List.mem_cons_of_mem first (List.mem_cons_self r rest2)
    obtain ⟨hsr, her⟩ := mem_extractSelectOptions hmemr
    simp [List.find?_cons, hsr, her]

/-- Witness for C7 at the option list of the spec example: default
resolution picks `"0-1 years"`. -/
theorem select_skips_placeholder_witness :
    pyIn "country code" "how many years have you used python" = false
    ∧ pyIn "experience" "how many years have you used python" = false
    ∧ extractSelectOptions ["Select an option", "0-1 years", "1-3 years", "3-5 years"]
        = ["Select an option", "0-1 years", "1-3 years", "3-5 years"]
    ∧ handle_standard_select "how many years have you used python"
        ["Select an option", "0-1 years", "1-3 years", "3-5 years"]
        = some "0-1 years" := by
  refine ⟨by decide, by decide, by decide, ?_⟩
  have h := select_skips_placeholder "how many years have you used python"
    ["Select an option", "0-1 years", "1-3 years", "3-5 years"]
    "Select an option" ["0-1 years", "1-3 years", "3-5 years"]
    (by decide) (by decide) (by decide)
  simpa using h

/-!  ## Step-controller lemmas -/

/-- Unfolding of `runFrom` at fuel `0`. -/
theorem runFrom_zero (env : Nat → StepView) (s : LoopState) :
    runFrom env 0 s
      = if s.currentStep < max_steps then ⟨s, .fuelOut, 0⟩
        else ⟨s, .stepLimit, 0⟩ := rfl

/-- Unfolding of `runFrom` at successor fuel. -/
theorem runFrom_succ (env : Nat → StepView) (fuel : Nat) (s : LoopState) :
    runFrom env (fuel + 1) s
      = if s.currentStep < max_steps then
          if (env (s.currentStep + 1)).isSubmitted then
            ⟨⟨s.currentStep + 1, s.processedFields, s.trace⟩, .submitted, 1⟩
          else if (env (s.currentStep + 1)).formFields.isEmpty
              && !(env (s.currentStep + 1)).hasButtons then
            ⟨⟨s.currentStep + 1, s.processedFields, s.trace⟩, .completedNoFields, 1⟩
          else if (env (s.currentStep + 1)).buttonResult = "" then
            if (env (s.currentStep + 1)).lateSubmitted then
              ⟨afterFields env s, .submittedLate, 1⟩
            else ⟨afterFields env s, .noButtons, 1⟩
          else bumpIters (runFrom env fuel (afterFields env s))
        else ⟨s, .stepLimit, 0⟩ := rfl

/-- Counter, ceiling and termination facts about the step loop: the final
counter equals the starting counter plus the number of iterations, a
`stepLimit` outcome means the ceiling was reached, the ceiling is never
exceeded, and with fuel at least `max_steps - currentStep` the fuel never
runs out. -/
theorem runFrom_spec (env : Nat → StepView) : ∀ (fuel : Nat) (s : LoopState),
    (runFrom env fuel s).state.currentStep
      = s.currentStep + (runFrom env fuel s).iters
    ∧ ((runFrom env fuel s).outcome = .stepLimit →
        max_steps ≤ (runFrom env fuel s).state.currentStep)
    ∧ (s.currentStep ≤ max_steps →
        (runFrom env fuel s).state.currentStep ≤ max_steps)
    ∧ (max_steps ≤ s.currentStep + fuel →
        (runFrom env fuel s).outcome ≠ .fuelOut) := by
  intro fuel
  induction fuel with
  | zero =>
    intro s
    rw [runFrom_zero]
    by_cases h : s.currentStep < max_steps
    · rw [if_pos h]
      refine ⟨rfl, ?_, ?_, ?_⟩
      · intro hc; cases hc
      · intro hc; exact hc
      · intro hm; exact absurd hm (by omega)
    · rw [if_neg h]
      refine ⟨rfl, ?_, ?_, ?_⟩
      · intro _; show max_steps ≤ s.currentStep; omega
      · intro hc; exact hc
      · intro _ hc; cases hc
  | succ fuel ih =>
    intro s
    rw [runFrom_succ]
    by_cases h : s.currentStep < max_steps
    · rw [if_pos h]
      by_cases h1 : (env (s.currentStep + 1)).isSubmitted
      · rw [if_pos h1]
        refine ⟨rfl, ?_, ?_, ?_⟩
        · intro hc; cases hc
        · intro _; show s.currentStep + 1 ≤ max_steps; omega
        · intro _ hc; cases hc
      · rw [if_neg h1]
        by_cases h2 : (env (s.currentStep + 1)).formFields.isEmpty
            && !(env (s.currentStep + 1)).hasButtons
        · rw [if_pos h2]
          refine ⟨rfl, ?_, ?_, ?_⟩
          · intro hc; cases hc
          · intro _; show s.currentStep + 1 ≤ max_steps; omega
          · intro _ hc; cases hc
        · rw [if_neg h2]
          by_cases h3 : (env (s.currentStep + 1)).buttonResult = ""
          · rw [if_pos h3]
            by_cases h4 : (env (s.currentStep + 1)).lateSubmitted
            · rw [if_pos h4]
              refine ⟨rfl, ?_, ?_, ?_⟩
              · intro hc; cases hc
              · intro _; show s.currentStep + 1 ≤ max_steps; omega
              · intro _ hc; cases hc
            · rw [if_neg h4]
              refine ⟨rfl, ?_, ?_, ?_⟩
              · intro hc; cases hc
              · intro _; show s.currentStep + 1 ≤ max_steps; omega
              · intro _ hc; cases hc
          · rw [if_neg h3]
            obtain ⟨i1, i2, i3, i4⟩ := ih (afterFields env s)
            have hstep : (afterFields env s).currentStep = s.currentStep + 1 :=
              rfl
            refine ⟨?_, ?_, ?_, ?_⟩
            · show (runFrom env fuel (afterFields env s)).state.currentStep
                = s.currentStep
                  + ((runFrom env fuel (afterFields env s)).iters + 1)
              rw [i1, hstep]
              omega
            · intro hc
              exact i2 hc
            · intro _
              show (runFrom env fuel (afterFields env s)).state.currentStep
                ≤ max_steps
              exact i3 (by rw [hstep]; omega)
            · intro hm hc
              exact i4 (by rw [hstep]; omega) hc
    · rw [if_neg h]
      refine ⟨rfl, ?_, ?_, ?_⟩
      · intro _; show max_steps ≤ s.currentStep; omega
      · intro hc; exact hc
      · intro _ hc; cases hc

/-- When every step's navigation status is truthy (a non-empty string), the
loop never takes the falsy-status exits. -/
theorem runFrom_truthy (env : Nat → StepView)
    (hbt : ∀ n, (env n).buttonResult ≠ "") : ∀ (fuel : Nat) (s : LoopState),
    (runFrom env fuel s).outcome ≠ .submittedLate
    ∧ (runFrom env fuel s).outcome ≠ .noButtons := by
  intro fuel
  induction fuel with
  | zero =>
    intro s
    rw [runFrom_zero]
    by_cases h : s.currentStep < max_steps
    · rw [if_pos h]; exact ⟨(by intro hc; cases hc), (by intro hc; cases hc)⟩
    · rw [if_neg h]; exact ⟨(by intro hc; cases hc), (by intro hc; cases hc)⟩
  | succ fuel ih =>
    intro s
    rw [runFrom_succ]
    by_cases h : s.currentStep < max_steps
    · rw [if_pos h]
      by_cases h1 : (env (s.currentStep + 1)).isSubmitted
      · rw [if_pos h1]; exact ⟨(by intro hc; cases hc), (by intro hc; cases hc)⟩
      · rw [if_neg h1]
        by_cases h2 : (env (s.currentStep + 1)).formFields.isEmpty
            && !(env (s.currentStep + 1)).hasButtons
        · rw [if_pos h2]; exact ⟨(by intro hc; cases hc), (by intro hc; cases hc)⟩
        · rw [if_neg h2]
          rw [if_neg (hbt (s.currentStep + 1))]
          exact ih _
    · rw [if_neg h]; exact ⟨(by intro hc; cases hc), (by intro hc; cases hc)⟩

/-- The specification-level trace keys: one `processed_fields` key per
`process_field` invocation, in order. -/
def traceIds (t : List (Nat × Field)) : List String :=
  t.map (fun e => fieldId e.2)

/-- The per-step field walk preserves the no-duplicate-key invariant. -/
theorem processStepFields_inv (step : Nat) :
    ∀ (l : List Field) (processed : List String) (trace : List (Nat × Field)),
      (traceIds trace).Nodup → (∀ e ∈ trace, fieldId e.2 ∈ processed) →
      (traceIds (processStepFields step processed trace l).2).Nodup
      ∧ ∀ e ∈ (processStepFields step processed trace l).2,
          fieldId e.2 ∈ (processStepFields step processed trace l).1 := by
  intro l
  induction l with
  | nil => intro p t h1 h2; exact ⟨h1, h2⟩
  | cons f rest ih =>
    intro p t h1 h2
    unfold processStepFields
    by_cases hf : fieldId f ∈ p
    · rw [if_pos hf]
      exact ih p t h1 h2
    · rw [if_neg hf]
      apply ih
      · unfold traceIds
        rw [List.map_append]
        apply List.Nodup.append
        · exact h1
        · simp
        · intro x hx hx2
          simp only [List.map_cons, List.map_nil, List.mem_singleton] at hx2
          subst hx2
          obtain ⟨e, he, hee⟩ := List.mem_map.mp hx
          exact hf (hee ▸ h2 e he)
      · intro e he
        rcases List.mem_append.mp he with he1 | he1
        · exact List.mem_append_left _ (h2 e he1)
        · simp only [List.mem_singleton] at he1
          subst he1
          exact List.mem_append_right _ (by simp)

/-- The loop preserves the no-duplicate-key invariant across steps. -/
theorem runFrom_inv (env : Nat → StepView) : ∀ (fuel : Nat) (s : LoopState),
    (traceIds s.trace).Nodup →
    (∀ e ∈ s.trace, fieldId e.2 ∈ s.processedFields) →
    (traceIds (runFrom env fuel s).state.trace).Nodup := by
  intro fuel
  induction fuel with
  | zero =>
    intro s h1 h2
    rw [runFrom_zero]
    by_cases h : s.currentStep < max_steps
    · rw [if_pos h]; exact h1
    · rw [if_neg h]; exact h1
  | succ fuel ih =>
    intro s h1 h2
    rw [runFrom_succ]
    by_cases h : s.currentStep < max_steps
    · rw [if_pos h]
      by_cases ha : (env (s.currentStep + 1)).isSubmitted
      · rw [if_pos ha]; exact h1
      · rw [if_neg ha]
        by_cases hb : (env (s.currentStep + 1)).formFields.isEmpty
            && !(env (s.currentStep + 1)).hasButtons
        · rw [if_pos hb]; exact h1
        · rw [if_neg hb]
          obtain ⟨j1, j2⟩ := processStepFields_inv (s.currentStep + 1)
            (env (s.currentStep + 1)).formFields s.processedFields s.trace h1 h2
          by_cases hc : (env (s.currentStep + 1)).buttonResult = ""
          · rw [if_pos hc]
            by_cases hd : (env (s.currentStep + 1)).lateSubmitted
            · rw [if_pos hd]; exact j1
            · rw [if_neg hd]; exact j1
          · rw [if_neg hc]
            exact ih _ j1 j2
    · rw [if_neg h]; exact h1

/-!  ## Claim C2: the loop terminates within the step ceiling -/

/-- Claim C2: every application attempt terminates; it executes at most
`max_steps = 20` iterations, the step counter equals the number of
iterations executed (it strictly increases by one per iteration from `0`),
the ceiling is never exceeded, and the `stepLimit` exit fires exactly at
the ceiling - for every dialog behavior `env`. -/
theorem step_loop_terminates_within_ceiling (env : Nat → StepView) :
    (process_application_form env).outcome ≠ .fuelOut
    ∧ (process_application_form env).iters ≤ max_steps
    ∧ (process_application_form env).state.currentStep
        = (process_application_form env).iters
    ∧ ((process_application_form env).outcome = .stepLimit →
        (process_application_form env).iters = max_steps) := by
  unfold process_application_form
  obtain ⟨h1, h2, h3, h4⟩ := runFrom_spec env max_steps ⟨0, [], []⟩
  have h1' : (runFrom env max_steps ⟨0, [], []⟩).state.currentStep
      = (runFrom env max_steps ⟨0, [], []⟩).iters := by
    rw [h1]
    show 0 + _ = _
    omega
  have hceil : (runFrom env max_steps ⟨0, [], []⟩).state.currentStep
      ≤ max_steps := by
    apply h3
    show (0 : Nat) ≤ max_steps
    omega
  refine ⟨?_, by omega, h1', ?_⟩
  · apply h4
    show max_steps ≤ 0 + max_steps
    omega
  · intro ho
    have := h2 ho
    omega

/-!  ## Claim C3: every (question, type) pair is processed at most once -/

/-- Claim C3: within one attempt, `process_field` runs at most once per
`(question, type)` pair - later fields with an already-recorded key are
skipped, whatever their underlying UI handle - for every dialog behavior
`env`. -/
theorem fields_processed_at_most_once (env : Nat → StepView) (f : Field) :
    ((process_application_form env).state.trace.filter
      (fun e => e.2 = f)).length ≤ 1 := by
  have hn : (traceIds (process_application_form env).state.trace).Nodup :=
    runFrom_inv env max_steps ⟨0, [], []⟩ (by simp [traceIds]) (by simp)
  have hsub : List.Sublist
      ((process_application_form env).state.trace.filter (fun e => e.2 = f))
      ((process_application_form env).state.trace.filter
        (fun e => fieldId e.2 = fieldId f)) := by
    apply List.monotone_filter_right
    intro a ha
    have : a.2 = f := of_decide_eq_true ha
    simp [this]
  have hn' : (((process_application_form env).state.trace).map
      (fun e => fieldId e.2)).Nodup := hn
  calc ((process_application_form env).state.trace.filter
        (fun e => e.2 = f)).length
      ≤ ((process_application_form env).state.trace.filter
          (fun e => fieldId e.2 = fieldId f)).length := hsub.length_le
    _ ≤ 1 := length_filter_fiber_le_one
        (fun e : Nat × Field => fieldId e.2)
        ((process_application_form env).state.trace) hn' (fieldId f)

/-!  ## Claim C10: the navigation status is never falsy -/

/-- Claim C10: `handle_form_buttons` always returns one of the four
non-empty strings `"submitted"`, `"continue"`, `"completed"`, `"error"`
(never raising - its embedding is a total function), so in a loop whose
per-step status comes from it the falsy-status early exits
(`submittedLate`, `noButtons`) are unreachable. -/
theorem button_status_never_falsy (benv : Nat → ButtonEnv)
    (env : Nat → StepView)
    (h : ∀ n, (env n).buttonResult = handle_form_buttons (benv n)) :
    (∀ n, handle_form_buttons (benv n)
        ∈ (["submitted", "continue", "completed", "error"] : List String)
      ∧ handle_form_buttons (benv n) ≠ "")
    ∧ (process_application_form env).outcome ≠ .submittedLate
    ∧ (process_application_form env).outcome ≠ .noButtons := by
  have hcases : ∀ e : ButtonEnv,
      handle_form_buttons e
        ∈ (["submitted", "continue", "completed", "error"] : List String) := by
    intro e
    unfold handle_form_buttons
    by_cases h1 : e.raises = true
    · simp [h1]
    · by_cases h2 : (completion_indicators.any
          (fun s => pyIn s (pyLower e.pageText))) = true
      · simp [h1, h2]
      · by_cases h3 : e.submitClicked = true
        · simp [h1, h2, h3]
        · by_cases h4 : e.reviewClicked = true
          · by_cases h5 : e.reviewThenSubmit = true
            · simp [h1, h2, h3, h4, h5]
            · simp [h1, h2, h3, h4, h5]
          · by_cases h6 : e.nextClicked = true
            · simp [h1, h2, h3, h4, h6]
            · simp [h1, h2, h3, h4, h6]
  have hne : ∀ e : ButtonEnv, handle_form_buttons e ≠ "" := by
    intro e hc
    have hm := hcases e
    rw [hc] at hm
    simp at hm
  have hbt : ∀ n, (env n).buttonResult ≠ "" := by
    intro n
    rw [h n]
    exact hne (benv n)
  obtain ⟨t1, t2⟩ := runFrom_truthy env hbt max_steps ⟨0, [], []⟩
  exact ⟨fun n => ⟨hcases (benv n), hne (benv n)⟩, t1, t2⟩

/-- Witness for C10 on a dialog driven by the real `handle_form_buttons`
over pages with no indicators and no clickable buttons. -/
theorem button_status_never_falsy_witness :
    ((∀ n, handle_form_buttons (benvQuiet n)
        ∈ (["submitted", "continue", "completed", "error"] : List String)
      ∧ handle_form_buttons (benvQuiet n) ≠ "")
    ∧ (process_application_form envQuiet).outcome ≠ .submittedLate
    ∧ (process_application_form envQuiet).outcome ≠ .noButtons) :=
  button_status_never_falsy benvQuiet envQuiet (fun _ => rfl)

/-!  ## Claim C1: a submitted status does not end the loop -/

/-- Claim C1 (code bug): `process_application_form` inspects only the
truthiness of the navigation status, so a `"submitted"` return from
`handle_form_buttons` does not end the attempt: in the concrete scenario
`envC1` the handler reports `"submitted"` at step 1, yet the loop runs a
second step, processes a field there, runs a third step, and the attempt
ends in the no-fields-no-buttons completion exit rather than the
`Submitted` state. -/
theorem submit_status_does_not_end_loop :
    handle_form_buttons benvC1Submit = "submitted"
    ∧ (envC1 1).buttonResult = "submitted"
    ∧ (process_application_form envC1).iters = 3
    ∧ (process_application_form envC1).state.trace = [(2, fieldC1)]
    ∧ (process_application_form envC1).outcome = .completedNoFields
    ∧ (process_application_form envC1).outcome ≠ .submitted := by
  refine ⟨by decide, by decide, by decide, by decide, by decide, by decide⟩

end AutoApplier
